import Mathlib

/-!
Verification development for the influencer-search pipeline
(criteria extraction, merge, and the filter/sort engine), shallowly
embedded from the Python sources `app/influencer_utils.py` and
`app/main.py`.

Modelling conventions:
- Python strings are `List Char`; `str.lower()` is a character-wise map
  (faithful on ASCII, which is all the data and claims exercise).
- Python ints are `Int`, floats are exact rationals `ℚ` (the engine only
  compares floats, never does arithmetic on them, and comparison of
  floats agrees with comparison of the rationals they denote; NaN does
  not occur in the catalog).
- Python exceptions are `Except PyErr`; a raised exception inside
  `search` is `.error`.
- `re.search` with the age pattern is embedded as a leftmost scan that
  tries the six alternation branches in order at each start position
  (`\d+` is greedy; for this pattern greedy matching never needs
  backtracking, since a digit can never satisfy the following literal).
-/

/-- Convert a Lean string literal to the `List Char` string model. -/
def sl (s : String) : List Char := s.toList

/-- Character-wise lowercasing, modelling Python `str.lower()` on ASCII. -/
def lowerChars (s : List Char) : List Char := s.map Char.toLower

/-- Does `pre` occur at the very start of `s`? (substring matching helper). -/
def beginsWith : List Char → List Char → Bool
  | [], _ => true
  | _ :: _, [] => false
  | a :: as, b :: bs => a = b && beginsWith as bs

/-- Python `needle in haystack`: raw substring containment, no word boundaries. -/
def hasSub (needle : List Char) : List Char → Bool
  | [] => beginsWith needle []
  | c :: rest => beginsWith needle (c :: rest) || hasSub needle rest

/-- Scalar Python value stored inside a criteria list (e.g. an `age_range` entry). -/
inductive SVal
  | s (t : List Char)
  | i (n : Int)
  | q (x : ℚ)
deriving DecidableEq

/-- Dynamic Python value stored in a criteria dict. Nested lists do not occur
in any criteria the pipeline produces or the claims exercise, so list
elements are scalars. -/
inductive Val
  | str (s : List Char)
  | int (n : Int)
  | num (q : ℚ)
  | list (l : List SVal)
deriving DecidableEq

/-- The nine criteria keys of the schema (`influencer_utils.py` reads exactly
these; both extractors only ever write them). -/
inductive CKey
  | category | content_type | platform | gender | age_range
  | min_followers | max_followers | min_engagement | max_budget
deriving DecidableEq

/-- A criteria mapping: a Python dict over the schema keys, modelled by its
key-lookup function. Absent key = `none`. -/
abbrev Criteria := CKey → Option Val

/-- The empty criteria dict. -/
def emptyCriteria : Criteria := fun _ => none

/-- Dict update `c[k] = v`. -/
def setKey (c : Criteria) (k : CKey) (v : Val) : Criteria :=
  fun k' => if k' = k then some v else c k'

/-- The merge step of `main.py` line 87: `criteria = {**ai_criteria, **manual_criteria}`.
Later (manual) entries overwrite earlier (ai) ones key by key. -/
def mergeCriteria (ai manual : Criteria) : Criteria :=
  fun k => match manual k with
    | some v => some v
    | none => ai k

/-! ### Deterministic extractor (`InfluencerUtils.manual_criteria_parsing`) -/

/-- Female gender trigger words, in source (dict) order. -/
def femaleKws : List (List Char) :=
  [sl "female", sl "woman", sl "women", sl "girl", sl "she", sl "her"]

/-- Male gender trigger words, in source (dict) order. -/
def maleKws : List (List Char) :=
  [sl "male", sl "man", sl "men", sl "boy", sl "he", sl "him"]

/-- Gender detection: female triggers are checked first; the first trigger
set with any raw-substring hit wins and scanning stops (`break`). -/
def firstGender (t : List Char) : Option (List Char) :=
  if femaleKws.any (fun kw => hasSub kw t) then some (sl "female")
  else if maleKws.any (fun kw => hasSub kw t) then some (sl "male")
  else none

/-- Platform alias table in source insertion order (`platform_map`). -/
def platformAliases : List (List Char × List Char) :=
  [(sl "instagram", sl "ig"), (sl "youtube", sl "yt"), (sl "facebook", sl "fb"),
   (sl "tiktok", sl "tiktok"), (sl "ig", sl "ig"), (sl "insta", sl "ig"),
   (sl "yt", sl "yt"), (sl "fb", sl "fb")]

/-- Category synonym table in source insertion order (`category_map`). -/
def categoryAliases : List (List Char × List Char) :=
  [(sl "fitness", sl "fitness"), (sl "fit", sl "fitness"), (sl "workout", sl "fitness"),
   (sl "gym", sl "fitness"), (sl "exercise", sl "fitness"),
   (sl "tech", sl "tech"), (sl "technology", sl "tech"), (sl "gadgets", sl "tech"),
   (sl "fashion", sl "fashion"), (sl "style", sl "fashion"), (sl "clothing", sl "fashion"),
   (sl "food", sl "food"), (sl "cooking", sl "food"), (sl "cuisine", sl "food"),
   (sl "recipe", sl "food"),
   (sl "travel", sl "travel"), (sl "tourism", sl "travel"), (sl "adventure", sl "travel")]

/-- First table entry whose alias occurs as a substring of the text wins
(`for ...: if alias in user_input: ...; break`). -/
def firstIn (tbl : List (List Char × List Char)) (t : List Char) : Option (List Char) :=
  match tbl with
  | [] => none
  | (k, v) :: rest => if hasSub k t then some v else firstIn rest t

/-- Numeric value of a digit run. -/
def digitsVal (ds : List Char) : Nat :=
  ds.foldl (fun acc c => acc * 10 + (c.toNat - 48)) 0

/-- Greedy `\d+` at the head of the string: the maximal digit run (at least
one digit), its value, and the rest. -/
def takeDigits (s : List Char) : Option (Nat × List Char) :=
  let ds := s.takeWhile Char.isDigit
  if ds.isEmpty then none
  else some (digitsVal ds, s.dropWhile Char.isDigit)

/-- Python `\s` on the ASCII fragment the claims exercise. -/
def isSpaceCh (c : Char) : Bool := c = ' ' || c = '\t' || c = '\n' || c = '\r'

/-- Match a literal at the head of the string, returning the rest. -/
def dropLit : List Char → List Char → Option (List Char)
  | [], s => some s
  | _ :: _, [] => none
  | l :: ls, c :: cs => if c = l then dropLit ls cs else none

/-- Which alternation branch of the age pattern matched, with its captures. -/
inductive AgeMatch
  | under (n : Nat)
  | over (n : Nat)
  | dashRange (a b : Nat)
  | toRange (a b : Nat)
  | below (n : Nat)
  | above (n : Nat)
deriving DecidableEq

/-- Branch `under (\d+)` at the current position. -/
def matchUnder (s : List Char) : Option Nat :=
  match dropLit (sl "under ") s with
  | none => none
  | some r =>
    match takeDigits r with
    | none => none
    | some (n, _) => some n

/-- Branch `over (\d+)` at the current position. -/
def matchOver (s : List Char) : Option Nat :=
  match dropLit (sl "over ") s with
  | none => none
  | some r =>
    match takeDigits r with
    | none => none
    | some (n, _) => some n

/-- Branch `below (\d+)` at the current position. -/
def matchBelow (s : List Char) : Option Nat :=
  match dropLit (sl "below ") s with
  | none => none
  | some r =>
    match takeDigits r with
    | none => none
    | some (n, _) => some n

/-- Branch `above (\d+)` at the current position. -/
def matchAbove (s : List Char) : Option Nat :=
  match dropLit (sl "above ") s with
  | none => none
  | some r =>
    match takeDigits r with
    | none => none
    | some (n, _) => some n

/-- Branch `(\d+)\s*-\s*(\d+)` at the current position. -/
def matchDash (s : List Char) : Option (Nat × Nat) :=
  match takeDigits s with
  | none => none
  | some (a, r1) =>
    match dropLit (sl "-") (r1.dropWhile isSpaceCh) with
    | none => none
    | some r2 =>
      match takeDigits (r2.dropWhile isSpaceCh) with
      | none => none
      | some (b, _) => some (a, b)

/-- Branch `(\d+)\s*to\s*(\d+)` at the current position. -/
def matchTo (s : List Char) : Option (Nat × Nat) :=
  match takeDigits s with
  | none => none
  | some (a, r1) =>
    match dropLit (sl "to") (r1.dropWhile isSpaceCh) with
    | none => none
    | some r2 =>
      match takeDigits (r2.dropWhile isSpaceCh) with
      | none => none
      | some (b, _) => some (a, b)

/-- Try the six alternation branches, in pattern order, at one position. -/
def tryAt (s : List Char) : Option AgeMatch :=
  match matchUnder s with
  | some n => some (.under n)
  | none =>
  match matchOver s with
  | some n => some (.over n)
  | none =>
  match matchDash s with
  | some (a, b) => some (.dashRange a b)
  | none =>
  match matchTo s with
  | some (a, b) => some (.toRange a b)
  | none =>
  match matchBelow s with
  | some n => some (.below n)
  | none =>
  match matchAbove s with
  | some n => some (.above n)
  | none => none

/-- Embedding of `re.search` with the age pattern: leftmost start position wins; at each
position the alternation branches are tried in order. -/
def ageSearch : List Char → Option AgeMatch
  | [] => none
  | c :: rest =>
    match tryAt (c :: rest) with
    | some m => some m
    | none => ageSearch rest

/-- The `if age_match.group(1): ... elif ...` chain of lines 60-71: exactly
one branch matched, and it determines the produced `age_range` value. -/
def ageRangeOf : AgeMatch → List SVal
  | .under n => [.i 18, .i (n : Int)]
  | .over n => [.i (n : Int), .i 65]
  | .dashRange a b => [.i (a : Int), .i (b : Int)]
  | .toRange a b => [.i (a : Int), .i (b : Int)]
  | .below n => [.i 18, .i (n : Int)]
  | .above n => [.i (n : Int), .i 65]

/-- Embedding of `InfluencerUtils.manual_criteria_parsing` (lines 41-85): lowercase the
input, then run the gender, age, platform and category rules in order. -/
def manualCriteriaParsing (input : List Char) : Criteria :=
  let t := lowerChars input
  let c0 := emptyCriteria
  let c1 := match firstGender t with
    | some g => setKey c0 .gender (.str g)
    | none => c0
  let c2 := match ageSearch t with
    | some m => setKey c1 .age_range (.list (ageRangeOf m))
    | none => c1
  let c3 := match firstIn platformAliases t with
    | some code => setKey c2 .platform (.str code)
    | none => c2
  let c4 := match firstIn categoryAliases t with
    | some cat => setKey c3 .category (.str cat)
    | none => c3
  c4

/-! ### Catalog records and Python dynamic operations used by `search` -/

/-- One catalog row, with the columns `InfluencerUtils.search` and
`format_results` read. Float columns are modelled as exact rationals
(the engine only compares them). -/
structure Rec where
  name : List Char
  category : List Char
  content_type : List Char
  platform : List Char
  gender : List Char
  total_followers : Int
  overall_engagement : ℚ
  rates_for_charging_inr : ℚ
  age : Int
deriving DecidableEq

/-- The Python exceptions `search` can raise. -/
inductive PyErr
  | valueError
  | typeError
  | attrError
deriving DecidableEq

/-- Numeric view of a scalar, as used by `max`/`min`/comparisons; a string
operand makes those raise `TypeError`. -/
def svalAsRat : SVal → Option ℚ
  | .i n => some (n : ℚ)
  | .q x => some x
  | .s _ => none

/-- Python `max(m, v)` with an int literal first argument: returns the second
argument when it is strictly larger, otherwise the first (so the result
keeps the type of whichever argument is returned). -/
def pyMaxIntS (m : Int) (v : SVal) : Option SVal :=
  match svalAsRat v with
  | some b => some (if (m : ℚ) < b then v else .i m)
  | none => none

/-- Python `min(m, v)` with an int literal first argument: returns the second
argument when it is strictly smaller, otherwise the first. -/
def pyMinIntS (m : Int) (v : SVal) : Option SVal :=
  match svalAsRat v with
  | some b => some (if b < (m : ℚ) then v else .i m)
  | none => none

/-- The clamped age bounds computed at lines 111-112 of
`influencer_utils.py`: `min_age = max(18, min_age); max_age = min(65, max_age)`. -/
def pyAgeBounds (va vb : SVal) : Option (SVal × SVal) :=
  match pyMaxIntS 18 va, pyMinIntS 65 vb with
  | some lo, some hi => some (lo, hi)
  | _, _ => none

/-- Truncation toward zero, as Python `int()` on a float. -/
def ratTrunc (x : ℚ) : Int := if x < 0 then -(⌊-x⌋) else ⌊x⌋

/-- Python `int(str)`: optional surrounding whitespace, optional sign, then
decimal digits (underscore grouping and non-ASCII digits are not modelled;
no exercised input uses them). -/
def parseIntStr (s : List Char) : Option Int :=
  let t := (((s.dropWhile isSpaceCh).reverse.dropWhile isSpaceCh).reverse)
  match t with
  | '+' :: r => if r ≠ [] ∧ r.all Char.isDigit then some (digitsVal r : Int) else none
  | '-' :: r => if r ≠ [] ∧ r.all Char.isDigit then some (-(digitsVal r : Int)) else none
  | r => if r ≠ [] ∧ r.all Char.isDigit then some (digitsVal r : Int) else none

/-- Python `float(str)` on the simple decimal forms `[+-]digits[.digits]`
(exponents, inf/nan and leading-dot forms are not modelled; no exercised
input uses them). -/
def parseFloatStr (s : List Char) : Option ℚ :=
  let t := (((s.dropWhile isSpaceCh).reverse.dropWhile isSpaceCh).reverse)
  let core : List Char → Option ℚ := fun r =>
    match r.splitOn '.' with
    | [ds] =>
      if ds ≠ [] ∧ ds.all Char.isDigit then some ((digitsVal ds : Int) : ℚ) else none
    | [ds, fs] =>
      if ds ≠ [] ∧ ds.all Char.isDigit ∧ fs.all Char.isDigit then
        some ((digitsVal ds : ℚ) + (digitsVal fs : ℚ) / ((10 : ℚ) ^ fs.length))
      else none
    | _ => none
  match t with
  | '+' :: r => core r
  | '-' :: r => (core r).map Neg.neg
  | r => core r

/-- Python `int(value)` as used at lines 117 and 121: `ValueError` on a
non-numeric string, `TypeError` on a list. -/
def pyToInt : Val → Except PyErr Int
  | .int n => .ok n
  | .num x => .ok (ratTrunc x)
  | .str s =>
    match parseIntStr s with
    | some n => .ok n
    | none => .error .valueError
  | .list _ => .error .typeError

/-- Python `float(value)` as used at lines 125 and 129. -/
def pyToFloat : Val → Except PyErr ℚ
  | .int n => .ok (n : ℚ)
  | .num x => .ok x
  | .str s =>
    match parseFloatStr s with
    | some x => .ok x
    | none => .error .valueError
  | .list _ => .error .typeError

/-- Decimal digits of a natural number. -/
def natDigits (n : Nat) : List Char := Nat.toDigits 10 n

/-- Render an integer in decimal, as Python `str(int)`. -/
def intToStr (i : Int) : List Char :=
  if i < 0 then '-' :: natDigits i.natAbs else natDigits i.toNat

/-- Fractional digits of a rational in `[0,1)`, up to the given budget
(terminates early when the remainder is zero). -/
def fracDigitsAux : ℚ → Nat → List Char
  | _, 0 => []
  | x, Nat.succ k =>
    if x = 0 then []
    else
      let y := x * 10
      Char.ofNat (48 + (⌊y⌋).toNat) :: fracDigitsAux (y - (⌊y⌋ : ℚ)) k

/-- Decimal rendering of a nonnegative rational with at least one fractional
digit, approximating Python `str(float)` (shortest-roundtrip float repr is
not modelled; every exercised value is integral). -/
def ratToDecNN (x : ℚ) : List Char :=
  let ip := (⌊x⌋).toNat
  let fr := x - (⌊x⌋ : ℚ)
  natDigits ip ++ '.' :: (if fr = 0 then [Char.ofNat 48] else fracDigitsAux fr 17)

/-- Decimal rendering of a rational (signed). -/
def ratToDecStr (x : ℚ) : List Char :=
  if x < 0 then '-' :: ratToDecNN (-x) else ratToDecNN x

/-- Python `str(value)` as interpolated by the report f-strings. String
elements inside lists are rendered unquoted (Python would quote them; no
exercised criteria list contains strings). -/
def pyStrS : SVal → List Char
  | .s t => t
  | .i n => intToStr n
  | .q x => ratToDecStr x

/-- Python `str(value)` for a criteria value. -/
def pyStr : Val → List Char
  | .str s => s
  | .int n => intToStr n
  | .num x => ratToDecStr x
  | .list l =>
    '[' :: (match l.map pyStrS with
      | [] => [']']
      | e :: es => e ++ (es.foldr (fun x acc => ',' :: ' ' :: x ++ acc) [']']))

/-- Insert a comma after every third digit of a reversed digit list. -/
def commaRevIns : List Char → Nat → List Char
  | [], _ => []
  | [c], _ => [c]
  | c :: rest, k => if k = 2 then c :: ',' :: commaRevIns rest 0 else c :: commaRevIns rest (k + 1)

/-- Thousands-grouped decimal rendering of a natural number (`format(n, ",")`). -/
def commaNat (n : Nat) : List Char := (commaRevIns (natDigits n).reverse 0).reverse

/-- Thousands-grouped decimal rendering of an integer. -/
def commaInt (i : Int) : List Char :=
  if i < 0 then '-' :: commaNat i.natAbs else commaNat i.toNat

/-- The f-string format `{value:,}` used by the follower report entries:
`ValueError` when the value is a string, `TypeError` when it is a list. -/
def pyFmtComma : Val → Except PyErr (List Char)
  | .int n => .ok (commaInt n)
  | .num x =>
    .ok (if x < 0 then
          '-' :: (commaNat (⌊-x⌋).toNat ++
            '.' :: (if (-x) - (⌊-x⌋ : ℚ) = 0 then [Char.ofNat 48]
                    else fracDigitsAux ((-x) - (⌊-x⌋ : ℚ)) 17))
        else
          commaNat (⌊x⌋).toNat ++
            '.' :: (if x - (⌊x⌋ : ℚ) = 0 then [Char.ofNat 48]
                    else fracDigitsAux (x - (⌊x⌋ : ℚ)) 17))
  | .str _ => .error .valueError
  | .list _ => .error .typeError

/-- Two-digit zero-padded rendering of `n < 100`. -/
def twoDigits (n : Nat) : List Char :=
  [Char.ofNat (48 + n / 10), Char.ofNat (48 + n % 100 % 10)]

/-- The f-string format `{value:,.2f}` used by the budget report entry
(rounding of non-integral floats approximates Python's half-even with
half-up; every exercised value is integral). -/
def pyFmtMoney : Val → Except PyErr (List Char)
  | .int n => .ok (commaInt n ++ sl ".00")
  | .num x =>
    let c : Int := ⌊x * 100 + 1 / 2⌋
    .ok ((if c < 0 then ['-'] else []) ++ commaNat (c.natAbs / 100) ++ '.' :: twoDigits (c.natAbs % 100))
  | .str _ => .error .valueError
  | .list _ => .error .typeError

/-- Pandas elementwise `series == value` against a lower-cased string column:
a non-string scalar compares unequal everywhere (Series-vs-list length
semantics are not modelled; no exercised criteria hits them). -/
def valEqStr (v : Val) (s : List Char) : Bool :=
  match v with
  | .str t => t = s
  | _ => false

/-- Exact-key lookup in `platform_map` (`dict.get`). -/
def platformMapGet (k : List Char) : Option (List Char) :=
  List.lookup k platformAliases

/-! ### The filter/sort engine (`InfluencerUtils.search`, lines 87-135) -/

/-- Intermediate state of `search`: the surviving rows and the
`applied_filters` strings accumulated so far. -/
abbrev RS := List Rec × List (List Char)

/-- Lift an `Option` produced by a Python operation whose failure raises
`TypeError` (here: `max`/`min` on a non-numeric operand). -/
def toE (o : Option α) : Except PyErr α :=
  match o with
  | some a => .ok a
  | none => .error .typeError

/-- Sequencing of filter blocks: a raised exception propagates. -/
def andThen (x : Except PyErr RS) (f : RS → Except PyErr RS) : Except PyErr RS :=
  match x with
  | .error e => .error e
  | .ok st => f st

/-- Lines 96-98: the category filter block. -/
def stepCategory (c : Criteria) (st : RS) : Except PyErr RS :=
  match c CKey.category with
  | none => .ok st
  | some v =>
    .ok (st.1.filter (fun r => valEqStr v r.category),
         st.2 ++ [sl "category: " ++ pyStr v])

/-- Lines 100-103: the platform filter block; `.lower()` on a non-string
criteria value raises `AttributeError`. -/
def stepPlatform (c : Criteria) (st : RS) : Except PyErr RS :=
  match c CKey.platform with
  | none => .ok st
  | some (.str s) =>
    let code := (platformMapGet (lowerChars s)).getD s
    .ok (st.1.filter (fun r => r.platform = code),
         st.2 ++ [sl "platform: " ++ code])
  | some _ => .error .attrError

/-- Lines 105-107: the gender filter block. -/
def stepGender (c : Criteria) (st : RS) : Except PyErr RS :=
  match c CKey.gender with
  | none => .ok st
  | some v =>
    .ok (st.1.filter (fun r => valEqStr v r.gender),
         st.2 ++ [sl "gender: " ++ pyStr v])

/-- Lines 109-114: the age filter block. A present `age_range` of length
other than two is skipped by the `len(...) == 2` guard; `len()` of a
number raises `TypeError`; a two-character string unpacks into characters
and then `max(18, char)` raises `TypeError`. -/
def stepAge (c : Criteria) (st : RS) : Except PyErr RS :=
  match c CKey.age_range with
  | none => .ok st
  | some (.list [va, vb]) =>
    match pyAgeBounds va vb with
    | none => .error .typeError
    | some (vlo, vhi) =>
      match svalAsRat vlo, svalAsRat vhi with
      | some qlo, some qhi =>
        .ok (st.1.filter (fun r => decide (qlo ≤ (r.age : ℚ)) && decide ((r.age : ℚ) ≤ qhi)),
             st.2 ++ [sl "age: " ++ pyStrS vlo ++ sl "-" ++ pyStrS vhi])
      | _, _ => .error .typeError
  | some (.list _) => .ok st
  | some (.str t) => if t.length = 2 then .error .typeError else .ok st
  | some _ => .error .typeError

/-- Lines 116-118: the minimum-follower filter block (`int()` conversion,
then the `{value:,}` report entry). -/
def stepMinFollowers (c : Criteria) (st : RS) : Except PyErr RS :=
  match c CKey.min_followers with
  | none => .ok st
  | some v =>
    match pyToInt v with
    | .error e => .error e
    | .ok n =>
      match pyFmtComma v with
      | .error e => .error e
      | .ok fmt =>
        .ok (st.1.filter (fun r => decide (n ≤ r.total_followers)),
             st.2 ++ [sl "min followers: " ++ fmt])

/-- Lines 120-122: the maximum-follower filter block. -/
def stepMaxFollowers (c : Criteria) (st : RS) : Except PyErr RS :=
  match c CKey.max_followers with
  | none => .ok st
  | some v =>
    match pyToInt v with
    | .error e => .error e
    | .ok n =>
      match pyFmtComma v with
      | .error e => .error e
      | .ok fmt =>
        .ok (st.1.filter (fun r => decide (r.total_followers ≤ n)),
             st.2 ++ [sl "max followers: " ++ fmt])

/-- Lines 124-126: the minimum-engagement filter block. -/
def stepMinEngagement (c : Criteria) (st : RS) : Except PyErr RS :=
  match c CKey.min_engagement with
  | none => .ok st
  | some v =>
    match pyToFloat v with
    | .error e => .error e
    | .ok x =>
      .ok (st.1.filter (fun r => decide (x ≤ r.overall_engagement)),
           st.2 ++ [sl "min engagement: " ++ pyStr v ++ sl "%"])

/-- Lines 128-130: the budget filter block (`float()` conversion, then the
`{value:,.2f}` report entry with the rupee sign). -/
def stepMaxBudget (c : Criteria) (st : RS) : Except PyErr RS :=
  match c CKey.max_budget with
  | none => .ok st
  | some v =>
    match pyToFloat v with
    | .error e => .error e
    | .ok x =>
      match pyFmtMoney v with
      | .error e => .error e
      | .ok fmt =>
        .ok (st.1.filter (fun r => decide (r.rates_for_charging_inr ≤ x)),
             st.2 ++ [sl "max budget: " ++ sl "₹" ++ fmt])

/-- All eight filter blocks, in source order. -/
def stepsAll (c : Criteria) (st : RS) : Except PyErr RS :=
  andThen (stepCategory c st) fun s1 =>
  andThen (stepPlatform c s1) fun s2 =>
  andThen (stepGender c s2) fun s3 =>
  andThen (stepAge c s3) fun s4 =>
  andThen (stepMinFollowers c s4) fun s5 =>
  andThen (stepMaxFollowers c s5) fun s6 =>
  andThen (stepMinEngagement c s6) fun s7 =>
  stepMaxBudget c s7

/-- The descending ranking order of line 133: `overall_engagement` first,
`total_followers` as tie-break. `keyGe a b` states that `a` may precede `b`. -/
def keyGe (a b : Rec) : Bool :=
  decide (b.overall_engagement < a.overall_engagement) ||
  (decide (a.overall_engagement = b.overall_engagement) &&
   decide (b.total_followers ≤ a.total_followers))

/-- The sort key of a record. -/
def rkey (r : Rec) : ℚ × Int := (r.overall_engagement, r.total_followers)

/-- Stable insertion into a descending-sorted list: the new element goes in
front of the first element it is greater-or-equal to, hence in front of
equal keys only when it came earlier. -/
def insDesc (r : Rec) : List Rec → List Rec
  | [] => [r]
  | x :: xs => if keyGe r x then r :: x :: xs else x :: insDesc r xs

/-- Stable sort by `(overall_engagement, total_followers)` descending.
`DataFrame.sort_values` with several by-columns sorts via `np.lexsort`,
which is stable; a stable sorted permutation is unique, so stable
insertion sort is an exact model of line 133. -/
def sortDesc : List Rec → List Rec
  | [] => []
  | x :: xs => insDesc x (sortDesc xs)

/-- Join the `applied_filters` entries: `", ".join(...)` or `"no filters"`. -/
def joinSep (sep : List Char) : List (List Char) → List Char
  | [] => []
  | [x] => x
  | x :: y :: rest => x ++ sep ++ joinSep sep (y :: rest)

/-- Line 135: the report value returned beside the results. -/
def joinReport (fs : List (List Char)) : List Char :=
  if fs.isEmpty then sl "no filters" else joinSep (sl ", ") fs

/-- Embedding of `InfluencerUtils.search` (lines 87-135): empty-catalog early return,
the eight filter blocks, the descending stable sort, and the report. -/
def search (df : List Rec) (c : Criteria) : Except PyErr (List Rec × List Char) :=
  if df.isEmpty then .ok ([], sl "Data not loaded")
  else
    match stepsAll c (df, []) with
    | .error e => .error e
    | .ok st => .ok (sortDesc st.1, joinReport st.2)

/-! ### Order-theoretic facts about the ranking order -/

/-- The ranking order is total. -/
lemma keyGe_total (a b : Rec) : keyGe a b = true ∨ keyGe b a = true := by
  simp only [keyGe, Bool.or_eq_true, Bool.and_eq_true, decide_eq_true_eq]
  rcases lt_trichotomy a.overall_engagement b.overall_engagement with h | h | h
  · exact Or.inr (Or.inl h)
  · rcases le_total b.total_followers a.total_followers with hf | hf
    · exact Or.inl (Or.inr ⟨h, hf⟩)
    · exact Or.inr (Or.inr ⟨h.symm, hf⟩)
  · exact Or.inl (Or.inl h)

/-- The ranking order is transitive. -/
lemma keyGe_trans {a b c : Rec} (h1 : keyGe a b = true) (h2 : keyGe b c = true) :
    keyGe a c = true := by
  simp only [keyGe, Bool.or_eq_true, Bool.and_eq_true, decide_eq_true_eq] at h1 h2 ⊢
  rcases h1 with h1 | ⟨h1e, h1f⟩ <;> rcases h2 with h2 | ⟨h2e, h2f⟩
  · exact Or.inl (h2.trans h1)
  · exact Or.inl (by rw [← h2e]; exact h1)
  · exact Or.inl (by rw [h1e]; exact h2)
  · exact Or.inr ⟨h1e.trans h2e, h2f.trans h1f⟩

/-- Records with equal sort keys are related both ways. -/
lemma keyGe_of_rkey_eq {a b : Rec} (h : rkey a = rkey b) : keyGe a b = true := by
  simp only [rkey, Prod.mk.injEq] at h
  simp only [keyGe, Bool.or_eq_true, Bool.and_eq_true, decide_eq_true_eq]
  exact Or.inr ⟨h.1, le_of_eq h.2.symm⟩

/-! ### The stable descending sort -/

/-- Inserting permutes: the result holds the new element and the old ones. -/
lemma insDesc_perm (r : Rec) (l : List Rec) : (insDesc r l).Perm (r :: l) := by
  induction l with
  | nil => exact List.Perm.refl _
  | cons x xs ih =>
    cases hk : keyGe r x with
    | true => simp [insDesc, hk]
    | false =>
      simp only [insDesc, hk, Bool.false_eq_true, if_false]
      exact (ih.cons x).trans (List.Perm.swap r x xs)

/-- Sorting permutes the input. -/
lemma sortDesc_perm (l : List Rec) : (sortDesc l).Perm l := by
  induction l with
  | nil => exact List.Perm.refl _
  | cons x xs ih => exact (insDesc_perm x (sortDesc xs)).trans (ih.cons x)

/-- Inserting into a list sorted by the ranking order keeps it sorted. -/
lemma insDesc_pairwise {r : Rec} {l : List Rec}
    (h : l.Pairwise (fun a b => keyGe a b = true)) :
    (insDesc r l).Pairwise (fun a b => keyGe a b = true) := by
  induction l with
  | nil => simp [insDesc]
  | cons x xs ih =>
    rcases List.pairwise_cons.mp h with ⟨hx, hxs⟩
    cases hk : keyGe r x with
    | true =>
      simp only [insDesc, hk, if_true]
      refine List.pairwise_cons.mpr ⟨?_, h⟩
      intro y hy
      rcases List.mem_cons.mp hy with hyx | hy
      · rw [hyx]; exact hk
      · exact keyGe_trans hk (hx y hy)
    | false =>
      simp only [insDesc, hk, Bool.false_eq_true, if_false]
      refine List.pairwise_cons.mpr ⟨?_, ih hxs⟩
      intro y hy
      rcases List.mem_cons.mp ((insDesc_perm r xs).mem_iff.mp hy) with hyr | hy
      · rw [hyr]
        rcases keyGe_total r x with ht | ht
        · rw [hk] at ht; exact absurd ht (by simp)
        · exact ht
      · exact hx y hy

/-- The sorted output is pairwise ordered by the ranking order. -/
lemma sortDesc_pairwise (l : List Rec) :
    (sortDesc l).Pairwise (fun a b => keyGe a b = true) := by
  induction l with
  | nil => exact List.Pairwise.nil
  | cons x xs ih => exact insDesc_pairwise ih

/-- Stability of insertion: restricted to any single sort key, inserting
either prepends the new element (it only ever skips past strictly greater
keys) or leaves the restriction unchanged. -/
lemma insDesc_filter_key (r : Rec) (l : List Rec) (k : ℚ × Int) :
    (insDesc r l).filter (fun x => decide (rkey x = k)) =
      if rkey r = k then r :: l.filter (fun x => decide (rkey x = k))
      else l.filter (fun x => decide (rkey x = k)) := by
  induction l with
  | nil => by_cases hr : rkey r = k <;> simp [insDesc, List.filter, hr]
  | cons x xs ih =>
    cases hk : keyGe r x with
    | true =>
      simp only [insDesc, hk, if_true]
      by_cases hr : rkey r = k <;> simp [List.filter_cons, hr]
    | false =>
      simp only [insDesc, hk, Bool.false_eq_true, if_false]
      by_cases hr : rkey r = k
      · have hx : ¬ rkey x = k := by
          intro hxk
          have hge : keyGe r x = true := keyGe_of_rkey_eq (by rw [hr, hxk])
          rw [hk] at hge
          exact absurd hge (by simp)
        simp [List.filter_cons, hx, hr, ih]
      · by_cases hx : rkey x = k <;> simp [List.filter_cons, hx, hr, ih]

/-- Stability of the sort: restricted to any single sort key, the sorted
output lists exactly the input elements with that key, in input order. -/
lemma sortDesc_filter_key (l : List Rec) (k : ℚ × Int) :
    (sortDesc l).filter (fun x => decide (rkey x = k)) =
      l.filter (fun x => decide (rkey x = k)) := by
  induction l with
  | nil => rfl
  | cons x xs ih =>
    by_cases hx : rkey x = k
    · simp [sortDesc, insDesc_filter_key, hx, List.filter_cons, ih]
    · simp [sortDesc, insDesc_filter_key, hx, List.filter_cons, ih]

/-! ### Each filter block only narrows the surviving row set -/

lemma andThen_ok {x : Except PyErr RS} {f : RS → Except PyErr RS} {st' : RS}
    (h : andThen x f = .ok st') : ∃ st1, x = .ok st1 ∧ f st1 = .ok st' := by
  cases x with
  | error e => exact Except.noConfusion h
  | ok st1 => exact ⟨st1, rfl, h⟩

lemma stepCategory_sub {c : Criteria} {st st' : RS} (h : stepCategory c st = .ok st') :
    st'.1.Sublist st.1 := by
  unfold stepCategory at h
  split at h
  · simp only [Except.ok.injEq] at h; subst h; exact List.Sublist.refl _
  · simp only [Except.ok.injEq] at h; subst h; exact List.filter_sublist _

lemma stepPlatform_sub {c : Criteria} {st st' : RS} (h : stepPlatform c st = .ok st') :
    st'.1.Sublist st.1 := by
  unfold stepPlatform at h
  split at h
  · simp only [Except.ok.injEq] at h; subst h; exact List.Sublist.refl _
  · simp only [Except.ok.injEq] at h; subst h; exact List.filter_sublist _
  · exact Except.noConfusion h

lemma stepGender_sub {c : Criteria} {st st' : RS} (h : stepGender c st = .ok st') :
    st'.1.Sublist st.1 := by
  unfold stepGender at h
  split at h
  · simp only [Except.ok.injEq] at h; subst h; exact List.Sublist.refl _
  · simp only [Except.ok.injEq] at h; subst h; exact List.filter_sublist _

lemma stepAge_sub {c : Criteria} {st st' : RS} (h : stepAge c st = .ok st') :
    st'.1.Sublist st.1 := by
  unfold stepAge at h
  split at h
  · simp only [Except.ok.injEq] at h; subst h; exact List.Sublist.refl _
  · split at h
    · exact Except.noConfusion h
    · split at h
      · simp only [Except.ok.injEq] at h; subst h; exact List.filter_sublist _
      · exact Except.noConfusion h
  · simp only [Except.ok.injEq] at h; subst h; exact List.Sublist.refl _
  · split at h
    · exact Except.noConfusion h
    · simp only [Except.ok.injEq] at h; subst h; exact List.Sublist.refl _
  · exact Except.noConfusion h

lemma stepMinFollowers_sub {c : Criteria} {st st' : RS} (h : stepMinFollowers c st = .ok st') :
    st'.1.Sublist st.1 := by
  unfold stepMinFollowers at h
  split at h
  · simp only [Except.ok.injEq] at h; subst h; exact List.Sublist.refl _
  · split at h
    · exact Except.noConfusion h
    · split at h
      · exact Except.noConfusion h
      · simp only [Except.ok.injEq] at h; subst h; exact List.filter_sublist _

lemma stepMaxFollowers_sub {c : Criteria} {st st' : RS} (h : stepMaxFollowers c st = .ok st') :
    st'.1.Sublist st.1 := by
  unfold stepMaxFollowers at h
  split at h
  · simp only [Except.ok.injEq] at h; subst h; exact List.Sublist.refl _
  · split at h
    · exact Except.noConfusion h
    · split at h
      · exact Except.noConfusion h
      · simp only [Except.ok.injEq] at h; subst h; exact List.filter_sublist _

lemma stepMinEngagement_sub {c : Criteria} {st st' : RS} (h : stepMinEngagement c st = .ok st') :
    st'.1.Sublist st.1 := by
  unfold stepMinEngagement at h
  split at h
  · simp only [Except.ok.injEq] at h; subst h; exact List.Sublist.refl _
  · split at h
    · exact Except.noConfusion h
    · simp only [Except.ok.injEq] at h; subst h; exact List.filter_sublist _

lemma stepMaxBudget_sub {c : Criteria} {st st' : RS} (h : stepMaxBudget c st = .ok st') :
    st'.1.Sublist st.1 := by
  unfold stepMaxBudget at h
  split at h
  · simp only [Except.ok.injEq] at h; subst h; exact List.Sublist.refl _
  · split at h
    · exact Except.noConfusion h
    · split at h
      · exact Except.noConfusion h
      · simp only [Except.ok.injEq] at h; subst h; exact List.filter_sublist _

/-- Applying all filter blocks only narrows the surviving row set. -/
lemma stepsAll_sub {c : Criteria} {st st' : RS} (h : stepsAll c st = .ok st') :
    st'.1.Sublist st.1 := by
  unfold stepsAll at h
  obtain ⟨s1, h1, h⟩ := andThen_ok h
  obtain ⟨s2, h2, h⟩ := andThen_ok h
  obtain ⟨s3, h3, h⟩ := andThen_ok h
  obtain ⟨s4, h4, h⟩ := andThen_ok h
  obtain ⟨s5, h5, h⟩ := andThen_ok h
  obtain ⟨s6, h6, h⟩ := andThen_ok h
  obtain ⟨s7, h7, h⟩ := andThen_ok h
  exact ((((((((stepMaxBudget_sub h).trans
    (stepMinEngagement_sub h7)).trans
    (stepMaxFollowers_sub h6)).trans
    (stepMinFollowers_sub h5)).trans
    (stepAge_sub h4)).trans
    (stepGender_sub h3)).trans
    (stepPlatform_sub h2)).trans
    (stepCategory_sub h1))

/-! ### Claim C1: merge precedence -/

/-- C1. For every pair of criteria mappings, the merged criteria of
`main.py` line 87 gives, on any key present in both, the manual value;
manual-only and AI-only keys pass through unchanged; and with an empty AI
mapping the merge equals the manual mapping exactly. -/
theorem merge_manual_precedence (ai manual : Criteria) :
    (∀ k w, manual k = some w → mergeCriteria ai manual k = some w) ∧
    (∀ k v, manual k = none → ai k = some v → mergeCriteria ai manual k = some v) ∧
    (ai = emptyCriteria → mergeCriteria ai manual = manual) := by
  refine ⟨fun k w hw => ?_, fun k v h1 h2 => ?_, fun hai => funext fun k => ?_⟩
  · simp [mergeCriteria, hw]
  · simp [mergeCriteria, h1, h2]
  · subst hai
    cases hm : manual k <;> simp [mergeCriteria, emptyCriteria, hm]

/-- Concrete AI criteria used to witness the merge behaviour. -/
def aiSample : Criteria :=
  setKey (setKey emptyCriteria .platform (.str (sl "yt"))) .gender (.str (sl "male"))

/-- Concrete manual criteria used to witness the merge behaviour. -/
def manualSample : Criteria := setKey emptyCriteria .gender (.str (sl "female"))

/-- Witness for C1: on the shared `gender` key the manual value wins, the
AI-only `platform` key passes through, and merging the empty AI mapping
with the manual mapping returns the manual mapping. -/
theorem merge_manual_precedence_w :
    mergeCriteria aiSample manualSample CKey.gender = some (.str (sl "female")) ∧
    mergeCriteria aiSample manualSample CKey.platform = some (.str (sl "yt")) ∧
    mergeCriteria emptyCriteria manualSample = manualSample :=
  ⟨(merge_manual_precedence aiSample manualSample).1 CKey.gender _ (by decide),
   (merge_manual_precedence aiSample manualSample).2.1 CKey.platform _ (by decide) (by decide),
   (merge_manual_precedence emptyCriteria manualSample).2.2 rfl⟩

/-! ### Claim C6: empty catalog -/

/-- C6. For every criteria mapping, `search` on an empty catalog returns an
empty result set with the report naming the unavailability, and raises no
exception (lines 89-90; a failed CSV load yields an empty frame, so the
unavailable case reduces to the empty case). -/
theorem search_data_not_loaded (c : Criteria) :
    search [] c = .ok ([], sl "Data not loaded") := rfl

/-- Witness for C6 at a concrete criteria mapping. -/
theorem search_data_not_loaded_w :
    search [] manualSample = .ok ([], sl "Data not loaded") :=
  search_data_not_loaded manualSample

/-! ### Claim C2: ranking order and stability -/

/-- C2. Whatever `search` returns without raising is pairwise ordered by
`(overall_engagement desc, total_followers desc)`, and the sort is stable:
restricted to any single sort key, the output is a sublist of the catalog
restricted to that key, i.e. equal-key records keep their catalog order. -/
theorem search_ranked_stable (df : List Rec) (c : Criteria) (out : List Rec) (rep : List Char)
    (h : search df c = .ok (out, rep)) :
    out.Pairwise (fun a b => keyGe a b = true) ∧
    ∀ k : ℚ × Int,
      (out.filter (fun r => decide (rkey r = k))).Sublist
        (df.filter (fun r => decide (rkey r = k))) := by
  unfold search at h
  split at h
  · simp only [Except.ok.injEq, Prod.mk.injEq] at h
    obtain ⟨h1, _⟩ := h
    subst h1
    exact ⟨List.Pairwise.nil, fun k => by simp⟩
  · cases hst : stepsAll c (df, []) with
    | error e => rw [hst] at h; exact Except.noConfusion h
    | ok st =>
      rw [hst] at h
      simp only [Except.ok.injEq, Prod.mk.injEq] at h
      obtain ⟨ho, _⟩ := h
      subst ho
      refine ⟨sortDesc_pairwise _, fun k => ?_⟩
      rw [sortDesc_filter_key]
      exact (stepsAll_sub hst).filter _

/-- Concrete catalog used by several witnesses: a strictly higher-engagement
record listed last, and two records tied on both sort keys. -/
def dfSample : List Rec :=
  [⟨sl "a", sl "fitness", sl "video", sl "ig", sl "female", 1000, 5, 8000, 22⟩,
   ⟨sl "b", sl "fitness", sl "video", sl "ig", sl "female", 1000, 5, 5000, 40⟩,
   ⟨sl "c", sl "tech", sl "video", sl "yt", sl "male", 5000, 7, 6000, 30⟩]

/-- Witness for C2: on a concrete catalog with a tie, the returned sequence
is ranked and the tied pair keeps its catalog order. -/
theorem search_ranked_stable_w :
    (List.Pairwise (fun a b => keyGe a b = true)
      [⟨sl "c", sl "tech", sl "video", sl "yt", sl "male", 5000, 7, 6000, 30⟩,
       ⟨sl "a", sl "fitness", sl "video", sl "ig", sl "female", 1000, 5, 8000, 22⟩,
       ⟨sl "b", sl "fitness", sl "video", sl "ig", sl "female", 1000, 5, 5000, 40⟩]) ∧
    (List.filter (fun r => decide (rkey r = ((5 : ℚ), (1000 : Int))))
      [⟨sl "c", sl "tech", sl "video", sl "yt", sl "male", 5000, 7, 6000, 30⟩,
       ⟨sl "a", sl "fitness", sl "video", sl "ig", sl "female", 1000, 5, 8000, 22⟩,
       ⟨sl "b", sl "fitness", sl "video", sl "ig", sl "female", 1000, 5, 5000, 40⟩]).Sublist
      (dfSample.filter (fun r => decide (rkey r = ((5 : ℚ), (1000 : Int))))) :=
  ⟨(search_ranked_stable dfSample emptyCriteria _ _ rfl).1,
   (search_ranked_stable dfSample emptyCriteria _ _ rfl).2 ((5 : ℚ), (1000 : Int))⟩

/-! ### Claim C8: budget-only criteria -/

/-- Criteria whose only key is `max_budget = 7000`. -/
def budgetOnly : Criteria := fun k =>
  match k with
  | CKey.max_budget => some (.int 7000)
  | _ => none

/-- C8. With only `max_budget = 7000`, `search` returns exactly the catalog
records with rate at most 7000 (inclusive), ranked by engagement then
followers descending. -/
theorem search_budget_exact (df : List Rec) :
    ∃ out rep, search df budgetOnly = .ok (out, rep) ∧
      out.Perm (df.filter (fun r => decide (r.rates_for_charging_inr ≤ (7000 : ℚ)))) ∧
      out.Pairwise (fun a b => keyGe a b = true) := by
  cases df with
  | nil => exact ⟨[], sl "Data not loaded", rfl, List.Perm.nil, List.Pairwise.nil⟩
  | cons x xs =>
    refine ⟨sortDesc ((x :: xs).filter
        (fun r => decide (r.rates_for_charging_inr ≤ ((7000 : Int) : ℚ)))), _, rfl, ?_, sortDesc_pairwise _⟩
    have hcast : ((7000 : Int) : ℚ) = (7000 : ℚ) := by norm_num
    simp only [hcast]
    exact sortDesc_perm _

/-- Witness for C8 at a concrete catalog. -/
theorem search_budget_exact_w :
    ∃ out rep, search dfSample budgetOnly = .ok (out, rep) ∧
      out.Perm (dfSample.filter (fun r => decide (r.rates_for_charging_inr ≤ (7000 : ℚ)))) ∧
      out.Pairwise (fun a b => keyGe a b = true) :=
  search_budget_exact dfSample

/-! ### Claims C3 and C4: age clamping -/

/-- Python `max(m, v)` on two ints is the integer maximum. -/
lemma pyMaxIntS_int (m a : Int) : pyMaxIntS m (.i a) = some (.i (max m a)) := by
  simp only [pyMaxIntS, svalAsRat, Int.cast_lt]
  congr 1
  split
  · rename_i h; rw [max_eq_right h.le]
  · rename_i h; rw [max_eq_left (le_of_not_lt h)]

/-- Python `min(m, v)` on two ints is the integer minimum. -/
lemma pyMinIntS_int (m b : Int) : pyMinIntS m (.i b) = some (.i (min m b)) := by
  simp only [pyMinIntS, svalAsRat, Int.cast_lt]
  congr 1
  split
  · rename_i h; rw [min_eq_right h.le]
  · rename_i h; rw [min_eq_left (le_of_not_lt h)]

/-- The clamp of lines 111-112 on an integer request pair. -/
lemma pyAgeBounds_int (a b : Int) :
    pyAgeBounds (.i a) (.i b) = some (.i (max 18 a), .i (min 65 b)) := by
  simp [pyAgeBounds, pyMaxIntS_int, pyMinIntS_int]

/-- Criteria whose only key is `age_range = [a, b]`. -/
def ageOnly (a b : Int) : Criteria := fun k =>
  match k with
  | CKey.age_range => some (.list [.i a, .i b])
  | _ => none

/-- C3. For any integer request pair `[a, b]`, `search` filters with the
clamped bounds `[max 18 a, min 65 b]` inclusively and reports the clamped
bounds, not the raw request. -/
theorem search_age_clamped (df : List Rec) (a b : Int) (hdf : df ≠ []) :
    search df (ageOnly a b) =
      .ok (sortDesc (df.filter (fun r => decide (max 18 a ≤ r.age) && decide (r.age ≤ min 65 b))),
           sl "age: " ++ intToStr (max 18 a) ++ sl "-" ++ intToStr (min 65 b)) := by
  obtain ⟨x, xs, rfl⟩ := List.exists_cons_of_ne_nil hdf
  have hsteps : stepsAll (ageOnly a b) (x :: xs, []) =
      .ok ((x :: xs).filter (fun r => decide (max 18 a ≤ r.age) && decide (r.age ≤ min 65 b)),
           [sl "age: " ++ intToStr (max 18 a) ++ sl "-" ++ intToStr (min 65 b)]) := by
    have hfilter : (x :: xs).filter (fun r => decide (((max 18 a : Int) : ℚ) ≤ (r.age : ℚ)) &&
          decide ((r.age : ℚ) ≤ ((min 65 b : Int) : ℚ))) =
        (x :: xs).filter (fun r => decide (max 18 a ≤ r.age) && decide (r.age ≤ min 65 b)) :=
      List.filter_congr fun r _ => by
        congr 1
        · exact decide_eq_decide.mpr Int.cast_le
        · exact decide_eq_decide.mpr Int.cast_le
    rw [← hfilter]
    simp [stepsAll, andThen, stepCategory, stepPlatform, stepGender, stepAge,
      stepMinFollowers, stepMaxFollowers, stepMinEngagement, stepMaxBudget,
      ageOnly, pyAgeBounds_int, svalAsRat, pyStrS]
  have hentry : search (x :: xs) (ageOnly a b) =
      match stepsAll (ageOnly a b) (x :: xs, []) with
      | .error e => .error e
      | .ok st => .ok (sortDesc st.1, joinReport st.2) := rfl
  rw [hentry, hsteps]
  rfl

/-- Witness for C3: the boundary request `[10, 70]` filters and reports as
`[18, 65]` on a concrete catalog. -/
theorem search_age_clamped_w :
    search dfSample (ageOnly 10 70) =
      .ok (sortDesc (dfSample.filter
             (fun r => decide (max 18 10 ≤ r.age) && decide (r.age ≤ min 65 70))),
           sl "age: " ++ intToStr (max 18 10) ++ sl "-" ++ intToStr (min 65 70)) :=
  search_age_clamped dfSample 10 70 (by decide)

/-- One-record catalog whose influencer is 8 years old. -/
def dfYoung : List Rec :=
  [⟨sl "kid", sl "fitness", sl "video", sl "ig", sl "female", 1000, 5, 5000, 8⟩]

/-- Counterexample for C4: the ordered request `[5, 10]` clamps to the
inverted pair `[18, 10]`, which `search` uses both for filtering (the
8-year-old inside the requested range is dropped) and in the report. -/
theorem clamp_not_ordered_cx :
    pyAgeBounds (SVal.i 5) (SVal.i 10) = some (SVal.i 18, SVal.i 10) ∧
    ¬ ((18 : Int) ≤ 10) ∧
    search dfYoung (ageOnly 5 10) = .ok ([], sl "age: 18-10") :=
  ⟨rfl, by decide, rfl⟩

/-- C4 amended. The clamped bounds are ordered (`min ≤ max`) for every
ordered request pair whose range meets the platform band `[18, 65]`
(`18 ≤ b` and `a ≤ 65`); outside that band the clamp inverts the pair. -/
theorem clamp_ordered_when_overlapping (a b : Int) (hab : a ≤ b) (hb : 18 ≤ b) (ha : a ≤ 65) :
    pyAgeBounds (.i a) (.i b) = some (.i (max 18 a), .i (min 65 b)) ∧
    max 18 a ≤ min 65 b :=
  ⟨pyAgeBounds_int a b, by omega⟩

/-- Witness for the amended C4 at the request `[20, 30]`. -/
theorem clamp_ordered_when_overlapping_w :
    pyAgeBounds (SVal.i 20) (SVal.i 30) = some (SVal.i (max 18 20), SVal.i (min 65 30)) ∧
    max (18 : Int) 20 ≤ min 65 30 :=
  clamp_ordered_when_overlapping 20 30 (by decide) (by decide) (by decide)

/-! ### Claim C5: invalid numeric criteria -/

/-- Criteria with a valid `category` filter and a non-numeric
`min_followers` value. -/
def critBadFollowers : Criteria := fun k =>
  match k with
  | CKey.category => some (.str (sl "fitness"))
  | CKey.min_followers => some (.str (sl "abc"))
  | _ => none

/-- Counterexample for C5: on a concrete non-empty catalog, a non-numeric
`min_followers` makes `search` raise `ValueError` (from `int('abc')` at
line 117) instead of skipping the field and returning the category-filtered
results. -/
theorem invalid_numeric_cx :
    search dfSample critBadFollowers = Except.error PyErr.valueError := rfl

/-- C5 amended. On every non-empty catalog, a criteria mapping with a
non-numeric `min_followers` aborts the whole query with a raised
`ValueError` (surfaced by `main.py` lines 104-106 as a 500 "Search
processing error"); the valid `category` field is not applied on its own. -/
theorem invalid_numeric_aborts (df : List Rec) (hdf : df ≠ []) :
    search df critBadFollowers = Except.error PyErr.valueError := by
  obtain ⟨x, xs, rfl⟩ := List.exists_cons_of_ne_nil hdf
  rfl

/-- Witness for the amended C5 on another concrete catalog. -/
theorem invalid_numeric_aborts_w :
    search dfYoung critBadFollowers = Except.error PyErr.valueError :=
  invalid_numeric_aborts dfYoung (by decide)

/-! ### Claim C7: texts containing "under 25" -/

/-- Counterexample for C7: a text that contains "under 25" but whose
leftmost age-pattern match is the earlier "30 to 40", which wins. -/
theorem under25_not_universal :
    hasSub (sl "under 25") (sl "ages 30 to 40 but under 25") = true ∧
    manualCriteriaParsing (sl "ages 30 to 40 but under 25") CKey.age_range =
      some (.list [.i 30, .i 40]) ∧
    manualCriteriaParsing (sl "ages 30 to 40 but under 25") CKey.age_range ≠
      some (.list [.i 18, .i 25]) := by decide

/-- C7 amended. Whenever the age pattern's leftmost match in the lowercased
text is the "under 25" phrasing — in particular whenever no other age
phrasing occurs earlier in the text — the extractor yields
`age_range = [18, 25]`. -/
theorem under25_when_leftmost (t : List Char)
    (h : ageSearch (lowerChars t) = some (AgeMatch.under 25)) :
    manualCriteriaParsing t CKey.age_range = some (.list [.i 18, .i 25]) := by
  cases hg : firstGender (lowerChars t) <;>
    cases hp : firstIn platformAliases (lowerChars t) <;>
      cases hc : firstIn categoryAliases (lowerChars t) <;>
        simp [manualCriteriaParsing, h, hg, hp, hc, setKey, ageRangeOf, emptyCriteria]

/-- Witness for the amended C7: "girls under 25" has "under 25" as its
leftmost age-pattern match and extracts `[18, 25]`. -/
theorem under25_when_leftmost_w :
    ageSearch (lowerChars (sl "girls under 25")) = some (AgeMatch.under 25) ∧
    manualCriteriaParsing (sl "girls under 25") CKey.age_range =
      some (.list [.i 18, .i 25]) :=
  ⟨by decide, under25_when_leftmost (sl "girls under 25") (by decide)⟩

/-! ### Claim C9: the four-field scenario -/

/-- The scenario query text. -/
def textScenario : List Char := sl "Female fitness influencers on Instagram under 30"

/-- C9. On the scenario text the deterministic extractor resolves gender,
category, platform and age range as specified, and since manual values win
the merge, the merged criteria contain those four bindings whatever the AI
extractor returned. -/
theorem scenario_female_fitness_ig_under30 (ai : Criteria) :
    mergeCriteria ai (manualCriteriaParsing textScenario) CKey.gender =
      some (.str (sl "female")) ∧
    mergeCriteria ai (manualCriteriaParsing textScenario) CKey.category =
      some (.str (sl "fitness")) ∧
    mergeCriteria ai (manualCriteriaParsing textScenario) CKey.platform =
      some (.str (sl "ig")) ∧
    mergeCriteria ai (manualCriteriaParsing textScenario) CKey.age_range =
      some (.list [.i 18, .i 30]) := by
  have hg : manualCriteriaParsing textScenario CKey.gender = some (.str (sl "female")) := by
    decide
  have hc : manualCriteriaParsing textScenario CKey.category = some (.str (sl "fitness")) := by
    decide
  have hp : manualCriteriaParsing textScenario CKey.platform = some (.str (sl "ig")) := by
    decide
  have ha : manualCriteriaParsing textScenario CKey.age_range =
      some (.list [.i 18, .i 30]) := by decide
  exact ⟨by simp [mergeCriteria, hg], by simp [mergeCriteria, hc],
    by simp [mergeCriteria, hp], by simp [mergeCriteria, ha]⟩

/-- Witness for C9 with the empty AI mapping. -/
theorem scenario_female_fitness_ig_under30_w :
    mergeCriteria emptyCriteria (manualCriteriaParsing textScenario) CKey.gender =
      some (.str (sl "female")) ∧
    mergeCriteria emptyCriteria (manualCriteriaParsing textScenario) CKey.category =
      some (.str (sl "fitness")) ∧
    mergeCriteria emptyCriteria (manualCriteriaParsing textScenario) CKey.platform =
      some (.str (sl "ig")) ∧
    mergeCriteria emptyCriteria (manualCriteriaParsing textScenario) CKey.age_range =
      some (.list [.i 18, .i 30]) :=
  scenario_female_fitness_ig_under30 emptyCriteria

/-! ### Claim C10: gender triggers have no word boundaries -/

/-- A query text with no gender-referring word. -/
def textGenderArtifact : List Char := sl "the best tech bloggers"

/-- C10. Gender detection is raw substring containment: on "the best tech
bloggers", no female trigger occurs, and the only male trigger that occurs
is "he" — inside the word "the" — yet the extractor sets gender = male. -/
theorem gender_from_substring_artifact :
    manualCriteriaParsing textGenderArtifact CKey.gender = some (.str (sl "male")) ∧
    femaleKws.filter (fun kw => hasSub kw textGenderArtifact) = [] ∧
    maleKws.filter (fun kw => hasSub kw textGenderArtifact) = [sl "he"] ∧
    hasSub (sl "the") textGenderArtifact = true := by decide
